import Mathlib

/-!
Verification of the price-convergence engine in `flipkartpricing.py`.

The embedding models the core of `PriceUpdateBot`:

* `nextVal` — the per-iteration step computation of `update_price_for`
  (lines 118–120): multiply the current settlement value by
  `GROWTH_FACTOR = 1.0199` and clamp to the target.
* `sendFormat` — the two-decimal formatting `f"{val:.2f}"` that
  `_set_and_apply` (line 101) types into the UI field.
* `priceLoop` — the `while current < target` loop (lines 117–123),
  with explicit fuel (Python has no bound) and an optional "apply
  budget" modelling how many `_set_and_apply` calls succeed before the
  adapter raises.  It records, for each iteration, the pair
  (value passed to `_set_and_apply`, value transmitted to the UI).
* `update_price_for` — the per-task method (lines 109–127) including its
  catch-all `except` clause, over an adapter environment `TaskEnv`.
* `PriceUpdateBot_run` — the batch driver (lines 129–134), whose row
  parsing (`r["SKU"].strip()`, line 134) happens *outside* the per-task
  exception handler: a blank cell is read by pandas as NaN (a float),
  and `.strip()` on it raises an uncaught `AttributeError`.

Prices are modelled as exact rationals; the two-decimal formatting is
modelled as rounding to the nearest multiple of 1/100.
-/

/-- Line 118: the growth factor `1.0199` of `update_price_for`. -/
def GROWTH_FACTOR : ℚ := 10199 / 10000

/-- Lines 118–120 of `update_price_for`: `next_val = current * 1.0199`,
then `if next_val > target: next_val = target`. -/
def nextVal (current target : ℚ) : ℚ :=
  let n := current * GROWTH_FACTOR
  if n > target then target else n

/-- Line 101 of `_set_and_apply`: the value typed into the UI field is
`f"{val:.2f}"`, i.e. `val` rounded to two decimal places. -/
def sendFormat (val : ℚ) : ℚ := (round (val * 100) : ℚ) / 100

/-- How the `while` loop of `update_price_for` ends. -/
inductive LoopExit where
  | finished (final : ℚ)
  | applyError
  | outOfFuel
  deriving DecidableEq

/-- Consume one `_set_and_apply` call from the apply budget.
`none` budget means the adapter never fails; `some 0` means the next
apply call raises. -/
def tryApply : Option ℕ → Option (Option ℕ)
  | none => some none
  | some 0 => none
  | some (b + 1) => some (some b)

/-- Lines 117–123 of `update_price_for`:

```
while current < target:
    next_val = current * 1.0199
    if next_val > target:
        next_val = target
    self._set_and_apply(next_val)
    current = next_val
```

Returns the list of iterations — for each one the pair
`(next_val, sendFormat next_val)`, i.e. the value passed to
`_set_and_apply` and the two-decimal value it transmits to the UI —
together with how the loop exited.  `fuel` bounds the number of
iterations modelled; the Python loop itself has no such bound. -/
def priceLoop : ℕ → Option ℕ → ℚ → ℚ → List (ℚ × ℚ) × LoopExit
  | 0, _, current, target =>
    if current < target then ([], .outOfFuel) else ([], .finished current)
  | fuel + 1, budget, current, target =>
    if current < target then
      let n := nextVal current target
      match tryApply budget with
      | none => ([], .applyError)
      | some budget' =>
        let r := priceLoop fuel budget' n target
        ((n, sendFormat n) :: r.1, r.2)
    else ([], .finished current)

/-- The adapter errors of the spec's UI Adapter contract. -/
inductive TaskError where
  | notFound
  | interaction
  | readError
  | applyInteraction
  deriving DecidableEq

/-- Per-task behaviour of the external UI, as seen through the adapter:
whether opening the listing and the pricing panel succeed, what the
initial read returns (`none` = read fails), and how many apply calls
succeed before one raises (`none` = applies never fail). -/
structure TaskEnv where
  openListingOk : Bool
  openPanelOk : Bool
  readValue : Option ℚ
  applyBudget : Option ℕ

/-- Outcome of one task: `update_price_for` either logs "Done" or
catches the exception and logs "Failed"; it never re-raises.
`outOfFuel` marks runs the fuel-bounded model cannot decide. -/
inductive Outcome where
  | success
  | failure (err : TaskError)
  | outOfFuel
  deriving DecidableEq

/-- Lines 109–127, `update_price_for(sku, target)`: open the listing,
open the pricing modal, read the settlement value, run the stepping
loop; any exception from an adapter call is caught by the
`except Exception` clause and turned into a logged failure. -/
def update_price_for (fuel : ℕ) (env : TaskEnv) (target : ℚ) : Outcome :=
  if env.openListingOk = false then .failure .notFound
  else if env.openPanelOk = false then .failure .interaction
  else
    match env.readValue with
    | none => .failure .readError
    | some current =>
      match (priceLoop fuel env.applyBudget current target).2 with
      | .finished _ => .success
      | .applyError => .failure .applyInteraction
      | .outOfFuel => .outOfFuel

/-- One spreadsheet row as `run` sees it after
`pd.read_excel(..., dtype={"SKU": str, "FinalPrice": float})`:
`sku = none` models a blank SKU cell, which pandas leaves as the float
NaN rather than a string; `env` is the UI behaviour for this row's
task. -/
structure InputRow where
  sku : Option String
  finalPrice : ℚ
  env : TaskEnv

/-- The uncaught exception of the batch driver: `r["SKU"].strip()` on a
NaN cell raises `AttributeError` (line 134), outside any handler. -/
inductive RunError where
  | attributeError
  deriving DecidableEq

/-- Line 134's `r["SKU"].strip()`: a string cell is stripped; a blank
cell is NaN, a float, and `.strip()` raises `AttributeError`. -/
def stripSku : Option String → Except RunError String
  | none => .error .attributeError
  | some s => .ok s.trim

/-- Lines 129–134, `PriceUpdateBot.run`: iterate the rows in order,
calling `update_price_for` once per row.  The row parsing on line 134
runs in the loop body itself, so its exceptions propagate and abort the
whole batch. -/
def PriceUpdateBot_run (fuel : ℕ) : List InputRow → Except RunError (List Outcome)
  | [] => .ok []
  | r :: rs =>
    match stripSku r.sku with
    | .error e => .error e
    | .ok _ =>
      let o := update_price_for fuel r.env r.finalPrice
      match PriceUpdateBot_run fuel rs with
      | .error e => .error e
      | .ok rest => .ok (o :: rest)

/-- The iterations of the spec's worked scenario (current 100, target
105): applied values 101.99, 104.019601 and 105, transmitted as 101.99,
104.02 and 105.00. -/
def scenarioSteps : List (ℚ × ℚ) :=
  [(10199 / 100, 10199 / 100), (104019601 / 1000000, 5201 / 50), (105, 105)]

/-! ### Basic facts about one step -/

lemma one_le_GROWTH_FACTOR : (1 : ℚ) ≤ GROWTH_FACTOR := by
  norm_num [GROWTH_FACTOR]

lemma GROWTH_FACTOR_pos : (0 : ℚ) < GROWTH_FACTOR := by
  norm_num [GROWTH_FACTOR]

/-- The clamp (lines 119–120) keeps every computed step at or below the
target. -/
lemma nextVal_le_target (c t : ℚ) : nextVal c t ≤ t := by
  by_cases h : c * GROWTH_FACTOR > t
  · simp [nextVal, h]
  · simp only [nextVal, if_neg h]
    exact le_of_not_lt h

/-- The computed step never exceeds `current * GROWTH_FACTOR`. -/
lemma nextVal_le_growth (c t : ℚ) : nextVal c t ≤ c * GROWTH_FACTOR := by
  by_cases h : c * GROWTH_FACTOR > t
  · simp only [nextVal, if_pos h]
    exact le_of_lt h
  · simp [nextVal, if_neg h]

/-- When the step is not clamped, it is exactly `current * GROWTH_FACTOR`. -/
lemma nextVal_eq_growth (c t : ℚ) (h : ¬ c * GROWTH_FACTOR > t) :
    nextVal c t = c * GROWTH_FACTOR := by
  simp [nextVal, if_neg h]

/-- From a positive value strictly below the target, the step does not
decrease the price. -/
lemma le_nextVal (c t : ℚ) (hc : 0 < c) (hct : c < t) : c ≤ nextVal c t := by
  by_cases h : c * GROWTH_FACTOR > t
  · simp only [nextVal, if_pos h]
    exact le_of_lt hct
  · simp only [nextVal, if_neg h]
    calc c = c * 1 := (mul_one c).symm
      _ ≤ c * GROWTH_FACTOR :=
          mul_le_mul_of_nonneg_left one_le_GROWTH_FACTOR (le_of_lt hc)

lemma nextVal_pos (c t : ℚ) (hc : 0 < c) (hct : c < t) : 0 < nextVal c t :=
  lt_of_lt_of_le hc (le_nextVal c t hc hct)

/-! ### Structural facts about the loop -/

/-- A run that starts at or above the target does nothing: zero
iterations, loop exits immediately with the initial value. -/
lemma priceLoop_of_not_lt (fuel : ℕ) (b : Option ℕ) (c t : ℚ) (h : ¬ c < t) :
    priceLoop fuel b c t = ([], .finished c) := by
  cases fuel with
  | zero => simp [priceLoop, h]
  | succ n => simp [priceLoop, h]

/-- Every recorded iteration transmits exactly the two-decimal rendering
of the value it was passed. -/
lemma priceLoop_sent (fuel : ℕ) (b : Option ℕ) (c t : ℚ) :
    ∀ p ∈ (priceLoop fuel b c t).1, p.2 = sendFormat p.1 := by
  induction fuel generalizing b c with
  | zero =>
    intro p hp
    by_cases h : c < t <;> simp [priceLoop, h] at hp
  | succ n ih =>
    intro p hp
    by_cases h : c < t
    · simp only [priceLoop, if_pos h] at hp
      cases hb : tryApply b with
      | none => simp [hb] at hp
      | some b' =>
        simp only [hb] at hp
        rcases List.mem_cons.mp hp with hp | hp
        · rw [hp]
        · exact ih b' (nextVal c t) p hp
    · simp [priceLoop_of_not_lt _ _ _ _ h] at hp

/-- Line 123 (`current = next_val`): along the run, each tracked value
is obtained from the previous one by `nextVal` — by assumption, not by
re-reading the UI. -/
lemma priceLoop_chain (fuel : ℕ) (b : Option ℕ) (c t : ℚ) :
    List.Chain (fun a d => d = nextVal a t) c
      ((priceLoop fuel b c t).1.map Prod.fst) := by
  induction fuel generalizing b c with
  | zero =>
    by_cases h : c < t <;> simp [priceLoop, h]
  | succ n ih =>
    by_cases h : c < t
    · simp only [priceLoop, if_pos h]
      cases hb : tryApply b with
      | none => simp [hb]
      | some b' =>
        simp only [hb, List.map_cons]
        exact List.Chain.cons rfl (ih b' (nextVal c t))
    · simp [priceLoop_of_not_lt _ _ _ _ h]

/-- If the loop exits normally, the final tracked value is at or above
the target (the `while` guard has just failed). -/
lemma priceLoop_finished_ge (fuel : ℕ) (b : Option ℕ) (c t f : ℚ)
    (h : (priceLoop fuel b c t).2 = .finished f) : t ≤ f := by
  induction fuel generalizing b c with
  | zero =>
    by_cases hct : c < t
    · simp [priceLoop, hct] at h
    · simp only [priceLoop, if_neg hct] at h
      cases h
      exact le_of_not_lt hct
  | succ n ih =>
    by_cases hct : c < t
    · simp only [priceLoop, if_pos hct] at h
      cases hb : tryApply b with
      | none => simp [hb] at h
      | some b' =>
        simp only [hb] at h
        exact ih b' (nextVal c t) h
    · rw [priceLoop_of_not_lt _ _ _ _ hct] at h
      cases h
      exact le_of_not_lt hct

/-- If the loop starts below the target and exits normally, the very
last value it applied is the target itself, and the final tracked value
equals the target. -/
lemma priceLoop_finished_last (fuel : ℕ) (b : Option ℕ) (c t f : ℚ)
    (l : List (ℚ × ℚ)) (hct : c < t)
    (h : priceLoop fuel b c t = (l, .finished f)) :
    (l.map Prod.fst).getLast? = some t ∧ f = t := by
  induction fuel generalizing b c l with
  | zero => simp [priceLoop, hct] at h
  | succ n ih =>
    simp only [priceLoop, if_pos hct] at h
    cases hb : tryApply b with
    | none => simp [hb] at h
    | some b' =>
      simp only [hb] at h
      rcases hr : priceLoop n b' (nextVal c t) t with ⟨l', e⟩
      rw [hr] at h
      have hl : l = (nextVal c t, sendFormat (nextVal c t)) :: l' :=
        (Prod.mk.injEq _ _ _ _ ▸ h).1.symm
      have he : e = .finished f := (Prod.mk.injEq _ _ _ _ ▸ h).2
      subst he
      by_cases hnt : nextVal c t < t
      · obtain ⟨hlast, hf⟩ := ih b' (nextVal c t) l' hnt hr
        subst hl
        refine ⟨?_, hf⟩
        rcases hml : l'.map Prod.fst with _ | ⟨y, ys⟩
        · rw [hml] at hlast
          simp at hlast
        · rw [List.map_cons, hml, List.getLast?_cons_cons, ← hml]
          exact hlast
      · have hflush := priceLoop_of_not_lt n b' (nextVal c t) t hnt
        rw [hflush] at hr
        have hr' := hr.symm
        rw [Prod.mk.injEq] at hr'
        obtain ⟨hl', hfeq⟩ := hr'
        injection hfeq with hf
        have hnv : nextVal c t = t :=
          le_antisymm (nextVal_le_target c t) (le_of_not_lt hnt)
        subst hl hl'
        simp [hnv, hf]

/-- A step taken from a non-positive value stays non-positive and does
not move toward a larger target. -/
lemma nextVal_nonpos (c t : ℚ) (hc : c ≤ 0) (hct : c < t) :
    nextVal c t ≤ c := by
  have hg : c * GROWTH_FACTOR ≤ c := by
    calc c * GROWTH_FACTOR ≤ c * 1 :=
          mul_le_mul_of_nonpos_left one_le_GROWTH_FACTOR hc
      _ = c := mul_one c
  have hncl : ¬ c * GROWTH_FACTOR > t := not_lt_of_le (le_of_lt (lt_of_le_of_lt hg hct))
  rw [nextVal_eq_growth c t hncl]
  exact hg

/-- Starting at or below zero and strictly below the target, the loop
never terminates: it exhausts any amount of fuel.  (In the Python code
this is an infinite loop: from `current = 0` every step recomputes
`next_val = 0`.) -/
lemma priceLoop_stuck_nonpos (fuel : ℕ) (c t : ℚ) (hc : c ≤ 0) (hct : c < t) :
    (priceLoop fuel none c t).2 = .outOfFuel := by
  induction fuel generalizing c with
  | zero => simp [priceLoop, hct]
  | succ n ih =>
    have hnle : nextVal c t ≤ 0 := le_trans (nextVal_nonpos c t hc hct) hc
    have hnlt : nextVal c t < t := lt_of_le_of_lt (nextVal_nonpos c t hc hct) hct
    simp only [priceLoop, if_pos hct, tryApply]
    exact ih (nextVal c t) hnle hnlt

/-- Unfolding the loop for one iteration whose apply call succeeds. -/
lemma priceLoop_succ_of_lt (fuel : ℕ) (b b' : Option ℕ) (c t : ℚ)
    (h : c < t) (hb : tryApply b = some b') :
    priceLoop (fuel + 1) b c t =
      ((nextVal c t, sendFormat (nextVal c t)) ::
          (priceLoop fuel b' (nextVal c t) t).1,
        (priceLoop fuel b' (nextVal c t) t).2) := by
  simp only [priceLoop, if_pos h, hb]

/-- Fuel sufficiency: from a positive start, once `c * GROWTH_FACTOR ^ n`
reaches the target, `n + 1` iterations are enough for the loop to exit
normally. -/
lemma priceLoop_finishes (t : ℚ) : ∀ (n : ℕ) (c : ℚ), 0 < c →
    t ≤ c * GROWTH_FACTOR ^ n →
    ∃ l f, priceLoop (n + 1) none c t = (l, .finished f) := by
  intro n
  induction n with
  | zero =>
    intro c _ hle
    rw [pow_zero, mul_one] at hle
    exact ⟨[], c, priceLoop_of_not_lt _ _ _ _ (not_lt_of_le hle)⟩
  | succ n ih =>
    intro c hc hle
    by_cases hct : c < t
    · have hnpos := nextVal_pos c t hc hct
      have hbound : t ≤ nextVal c t * GROWTH_FACTOR ^ n := by
        by_cases hcl : c * GROWTH_FACTOR > t
        · have hnv : nextVal c t = t := by simp [nextVal, if_pos hcl]
          rw [hnv]
          have ht0 : 0 < t := lt_trans hc hct
          have hpow : (1 : ℚ) ≤ GROWTH_FACTOR ^ n :=
            one_le_pow₀ one_le_GROWTH_FACTOR
          calc t = t * 1 := (mul_one t).symm
            _ ≤ t * GROWTH_FACTOR ^ n :=
                mul_le_mul_of_nonneg_left hpow (le_of_lt ht0)
        · rw [nextVal_eq_growth c t hcl]
          calc t ≤ c * GROWTH_FACTOR ^ (n + 1) := hle
            _ = c * GROWTH_FACTOR * GROWTH_FACTOR ^ n := by ring
      obtain ⟨l, f, hlf⟩ := ih (nextVal c t) hnpos hbound
      refine ⟨(nextVal c t, sendFormat (nextVal c t)) :: l, f, ?_⟩
      rw [priceLoop_succ_of_lt (n + 1) none none c t hct rfl, hlf]
    · exact ⟨[], c, priceLoop_of_not_lt _ _ _ _ hct⟩

/-- From a positive start the tracked values never decrease: the loop
only ever raises the price. -/
lemma priceLoop_mono (fuel : ℕ) (b : Option ℕ) (c t : ℚ) (hc : 0 < c) :
    List.Chain' (· ≤ ·) (c :: (priceLoop fuel b c t).1.map Prod.fst) := by
  induction fuel generalizing b c with
  | zero => by_cases h : c < t <;> simp [priceLoop, h]
  | succ n ih =>
    by_cases h : c < t
    · cases hb : tryApply b with
      | none => simp [priceLoop, if_pos h, hb]
      | some b' =>
        rw [priceLoop_succ_of_lt n b b' c t h hb]
        simp only [List.map_cons]
        rw [List.chain'_cons]
        exact ⟨le_nextVal c t hc h, ih b' (nextVal c t) (nextVal_pos c t hc h)⟩
    · simp [priceLoop_of_not_lt _ _ _ _ h]

/-- The two-decimal rendering sent to the UI is within half a paisa
(1/200 of a rupee) of the exact value. -/
lemma abs_sendFormat_sub (v : ℚ) : |sendFormat v - v| ≤ 1 / 200 := by
  have h : |(round (v * 100) : ℚ) - v * 100| ≤ 1 / 2 := by
    rw [abs_sub_comm]
    exact abs_sub_round (v * 100)
  have heq : sendFormat v - v = ((round (v * 100) : ℚ) - v * 100) / 100 := by
    unfold sendFormat
    ring
  rw [heq, abs_div, abs_of_pos (by norm_num : (0 : ℚ) < 100)]
  calc |(round (v * 100) : ℚ) - v * 100| / 100 ≤ (1 / 2) / 100 :=
        (div_le_div_iff_of_pos_right (by norm_num)).mpr h
    _ = 1 / 200 := by norm_num

/-- When every row's SKU cell is a real string, `run` calls
`update_price_for` once per row, in order, and each row's outcome
depends only on that row's own task environment — adapter failures
included. -/
lemma run_ok_of_sku_some (fuel : ℕ) (rows : List InputRow)
    (h : ∀ r ∈ rows, r.sku.isSome) :
    PriceUpdateBot_run fuel rows =
      .ok (rows.map fun r => update_price_for fuel r.env r.finalPrice) := by
  induction rows with
  | nil => rfl
  | cons r rs ih =>
    have hr : r.sku.isSome := h r (List.mem_cons_self r rs)
    obtain ⟨s, hs⟩ := Option.isSome_iff_exists.mp hr
    have hrest := ih (fun x hx => h x (List.mem_cons_of_mem r hx))
    simp [PriceUpdateBot_run, stripSku, hs, hrest]

/-- A blank SKU cell aborts the whole batch with the uncaught
`AttributeError` of line 134, no matter what rows follow. -/
lemma run_error_of_blank (fuel : ℕ) (pre : List InputRow) (r : InputRow)
    (rows : List InputRow) (hpre : ∀ x ∈ pre, x.sku.isSome)
    (hr : r.sku = none) :
    PriceUpdateBot_run fuel (pre ++ r :: rows) = .error .attributeError := by
  induction pre with
  | nil => simp [PriceUpdateBot_run, stripSku, hr]
  | cons p ps ih =>
    have hp : p.sku.isSome := hpre p (List.mem_cons_self p ps)
    obtain ⟨s, hs⟩ := Option.isSome_iff_exists.mp hp
    have hrest := ih (fun x hx => hpre x (List.mem_cons_of_mem p hx))
    simp [PriceUpdateBot_run, stripSku, hs, hrest]

/-- No value passed to `_set_and_apply` exceeds the target. -/
lemma priceLoop_le_target (fuel : ℕ) (b : Option ℕ) (c t : ℚ) :
    ∀ p ∈ (priceLoop fuel b c t).1, p.1 ≤ t := by
  induction fuel generalizing b c with
  | zero =>
    intro p hp
    by_cases h : c < t <;> simp [priceLoop, h] at hp
  | succ n ih =>
    intro p hp
    by_cases h : c < t
    · simp only [priceLoop, if_pos h] at hp
      cases hb : tryApply b with
      | none => simp [hb] at hp
      | some b' =>
        simp only [hb] at hp
        rcases List.mem_cons.mp hp with hp | hp
        · rw [hp]
          exact nextVal_le_target c t
        · exact ih b' (nextVal c t) p hp
    · simp [priceLoop_of_not_lt _ _ _ _ h] at hp

/-- Concrete evaluation of the loop on the spec's worked scenario. -/
lemma priceLoop_scenario :
    priceLoop 5 none 100 105 = (scenarioSteps, .finished 105) := by
  norm_num [priceLoop, nextVal, sendFormat, GROWTH_FACTOR, tryApply, round_eq,
    scenarioSteps]

/-! ### The claims -/

/-- C1: for every task that succeeds with initial read value below the
target, the sequence of values passed to `applySettlementValue`
(`_set_and_apply`) is non-decreasing and its final element is exactly
the target. -/
theorem applied_values_monotone_and_reach_target
    (fuel : ℕ) (c t f : ℚ) (l : List (ℚ × ℚ))
    (hrun : priceLoop fuel none c t = (l, .finished f))
    (hct : c < t) :
    List.Chain' (· ≤ ·) (l.map Prod.fst) ∧
      (l.map Prod.fst).getLast? = some t := by
  have hpos : 0 < c := by
    by_contra hneg
    have hstuck := priceLoop_stuck_nonpos fuel c t (le_of_not_lt hneg) hct
    rw [hrun] at hstuck
    simp at hstuck
  constructor
  · have hchain := priceLoop_mono fuel none c t hpos
    rw [hrun] at hchain
    exact hchain.tail
  · exact (priceLoop_finished_last fuel none c t f l hct hrun).1

/-- Witness for C1 at the scenario current 100, target 105. -/
theorem applied_values_monotone_and_reach_target_witness :
    priceLoop 5 none 100 105 = (scenarioSteps, .finished 105) ∧
      (100 : ℚ) < 105 ∧
      (List.Chain' (· ≤ ·) (scenarioSteps.map Prod.fst) ∧
        (scenarioSteps.map Prod.fst).getLast? = some 105) :=
  ⟨priceLoop_scenario, by norm_num,
    applied_values_monotone_and_reach_target 5 100 105 105 scenarioSteps
      priceLoop_scenario (by norm_num)⟩

/-- C2: no value passed to `applySettlementValue` ever exceeds the
target, for any fuel, any adapter behaviour and any starting value:
the clamp on lines 119–120 forbids overshoot. -/
theorem applied_values_never_exceed_target (fuel : ℕ) (b : Option ℕ)
    (c t : ℚ) (p : ℚ × ℚ) (hp : p ∈ (priceLoop fuel b c t).1) : p.1 ≤ t :=
  priceLoop_le_target fuel b c t p hp

/-- Witness for C2: the scenario's final applied value 105 is at most
the target 105. -/
theorem applied_values_never_exceed_target_witness :
    ((105 : ℚ), (105 : ℚ)) ∈ (priceLoop 5 none 100 105).1 ∧
      ((105 : ℚ), (105 : ℚ)).1 ≤ 105 := by
  have hm : ((105 : ℚ), (105 : ℚ)) ∈ (priceLoop 5 none 100 105).1 := by
    rw [priceLoop_scenario]
    simp [scenarioSteps]
  exact ⟨hm, applied_values_never_exceed_target 5 none 100 105 _ hm⟩

/-- C3: when the panel opens and the first read returns a value at or
above the target, the loop body never runs — zero apply calls, no
write — and `update_price_for` reports success; the engine never lowers
a price. -/
theorem no_write_when_target_already_met (fuel : ℕ) (env : TaskEnv)
    (t c : ℚ) (h1 : env.openListingOk = true) (h2 : env.openPanelOk = true)
    (h3 : env.readValue = some c) (h4 : t ≤ c) :
    update_price_for fuel env t = .success ∧
      (priceLoop fuel env.applyBudget c t).1 = [] := by
  have hloop := priceLoop_of_not_lt fuel env.applyBudget c t (not_lt_of_le h4)
  refine ⟨?_, by rw [hloop]⟩
  simp [update_price_for, h1, h2, h3, hloop]

/-- Witness for C3 with the first read equal to the target. -/
theorem no_write_when_target_already_met_witness :
    update_price_for 3 ⟨true, true, some 105, none⟩ 105 = .success ∧
      (priceLoop 3 (none : Option ℕ) 105 105).1 = [] :=
  no_write_when_target_already_met 3 ⟨true, true, some 105, none⟩ 105 105
    rfl rfl rfl (le_refl _)

/-- C4: the per-step multiplicative increase is bounded by the growth
factor: every computed `next_val` is at most `current * GROWTH_FACTOR`
(clamped steps are even smaller), and `GROWTH_FACTOR` is 1.0199. -/
theorem step_bounded_by_growth_factor (c t : ℚ) :
    nextVal c t ≤ c * GROWTH_FACTOR ∧ GROWTH_FACTOR = 1.0199 :=
  ⟨nextVal_le_growth c t, by norm_num [GROWTH_FACTOR]⟩

/-- C5 as stated is false: with initial read value 0 (and target 1) the
loop never terminates — `next_val = 0 * 1.0199 = 0` forever, and no
amount of fuel makes it exit. -/
theorem stepping_loop_diverges_from_zero :
    ¬ ∃ fuel l f, priceLoop fuel none (0 : ℚ) 1 = (l, LoopExit.finished f) := by
  rintro ⟨fuel, l, f, h⟩
  have hstuck := priceLoop_stuck_nonpos fuel 0 1 (le_refl 0) (by norm_num)
  rw [h] at hstuck
  simp at hstuck

/-- C5 amended: for a positive target and a *positive* initial read
value, the loop terminates after finitely many iterations and its final
tracked value is at or above the target. -/
theorem stepping_loop_terminates_from_positive (c t : ℚ)
    (hc : 0 < c) (_ht : 0 < t) :
    ∃ fuel l f, priceLoop fuel none c t = (l, .finished f) ∧ t ≤ f := by
  obtain ⟨n, hn⟩ := pow_unbounded_of_one_lt (t / c)
    (show (1 : ℚ) < GROWTH_FACTOR by norm_num [GROWTH_FACTOR])
  have hcomm : GROWTH_FACTOR ^ n * c = c * GROWTH_FACTOR ^ n := mul_comm _ _
  have hle : t ≤ c * GROWTH_FACTOR ^ n := by
    have hlt := (div_lt_iff₀ hc).mp hn
    linarith
  obtain ⟨l, f, hlf⟩ := priceLoop_finishes t n c hc hle
  exact ⟨n + 1, l, f, hlf,
    priceLoop_finished_ge (n + 1) none c t f (by rw [hlf])⟩

/-- Witness for the amended C5 at current 1, target 2. -/
theorem stepping_loop_terminates_from_positive_witness :
    (0 : ℚ) < 1 ∧ (0 : ℚ) < 2 ∧
      ∃ fuel l f, priceLoop fuel none (1 : ℚ) 2 = (l, .finished f) ∧ 2 ≤ f :=
  ⟨by norm_num, by norm_num,
    stepping_loop_terminates_from_positive 1 2 (by norm_num) (by norm_num)⟩

/-- C6: adapter failures are contained in the failing task.  For rows
whose SKU cells are genuine strings, `run` always receives one recorded
outcome per row — never an exception — and row `i`'s outcome is computed
from row `i`'s own task environment alone, so a failing task cannot
prevent later tasks from being attempted. -/
theorem task_failure_isolated (fuel : ℕ) (rows : List InputRow)
    (h : ∀ r ∈ rows, r.sku.isSome) :
    PriceUpdateBot_run fuel rows =
      .ok (rows.map fun r => update_price_for fuel r.env r.finalPrice) :=
  run_ok_of_sku_some fuel rows h

/-- Witness for C6: the first task's listing fails to open, yet the
second task still runs and succeeds. -/
theorem task_failure_isolated_witness :
    (∀ r ∈ [(⟨some "A", 105, ⟨false, true, some 100, none⟩⟩ : InputRow),
        ⟨some "B", 105, ⟨true, true, some 105, none⟩⟩], r.sku.isSome) ∧
      PriceUpdateBot_run 3
          [⟨some "A", 105, ⟨false, true, some 100, none⟩⟩,
            ⟨some "B", 105, ⟨true, true, some 105, none⟩⟩] =
        .ok [.failure .notFound, .success] := by
  refine ⟨by simp, ?_⟩
  rw [task_failure_isolated 3 _ (by simp)]
  have h105 : priceLoop 3 (none : Option ℕ) 105 105 = ([], .finished 105) :=
    priceLoop_of_not_lt 3 none 105 105 (lt_irrefl 105)
  simp [update_price_for, h105]

/-- C7 as stated is false: the tracked `current` is not always a value
confirmed by a read.  In the run from 100 toward 105, after the second
apply the engine tracks 104.019601 while the UI was sent (and holds) the
two-decimal rendering 104.02 — an assumed value, confirmed by no read. -/
theorem tracked_value_not_read_confirmed :
    (priceLoop 5 none 100 105).1[1]? =
        some (104019601 / 1000000, 5201 / 50) ∧
      (104019601 / 1000000 : ℚ) ≠ 5201 / 50 := by
  rw [priceLoop_scenario]
  refine ⟨rfl, by norm_num⟩

/-- C7 amended: `currentValue` is initialized from the single read
(line 114) and thereafter each tracked value is the value the loop just
applied — `current = next_val`, line 123 — generated by `nextVal` from
its predecessor with no confirming re-read. -/
theorem tracked_value_is_assumed_applied_value (fuel : ℕ) (b : Option ℕ)
    (c t : ℚ) :
    List.Chain (fun a d => d = nextVal a t) c
      ((priceLoop fuel b c t).1.map Prod.fst) :=
  priceLoop_chain fuel b c t

/-- C8 as stated is false: the second applied value is 104.019601
(transmitted as 104.02), not approximately 103.99 — it differs from
103.99 by 0.029601, more than a two-decimal display tolerance. -/
theorem scenario_second_step_not_103_99 :
    (priceLoop 5 none 100 105).1.map Prod.fst =
        [10199 / 100, 104019601 / 1000000, 105] ∧
      ¬ |(104019601 / 1000000 : ℚ) - 10399 / 100| ≤ 1 / 200 := by
  rw [priceLoop_scenario]
  refine ⟨rfl, ?_⟩
  rw [abs_le]
  push_neg
  intro hcontra
  norm_num

/-- C8 amended: from current 100 and target 105 the loop makes exactly
3 apply calls — 101.99, then 104.019601 (transmitted as 104.02), then
the clamp to exactly 105 — and the final applied value is 105.00. -/
theorem scenario_100_to_105_three_applies :
    priceLoop 5 none 100 105 = (scenarioSteps, .finished 105) ∧
      scenarioSteps.length = 3 ∧
      scenarioSteps.map Prod.fst = [10199 / 100, 104019601 / 1000000, 105] ∧
      scenarioSteps.map Prod.snd = [10199 / 100, 5201 / 50, 105] ∧
      (scenarioSteps.map Prod.fst).getLast? = some 105 :=
  ⟨priceLoop_scenario, rfl, rfl, rfl, rfl⟩

/-- C9 as stated is false: a row whose SKU cell is blank (NaN after
`read_excel`) crashes the whole batch: `r["SKU"].strip()` on line 134
raises outside the per-task handler, the run aborts with
`AttributeError`, and the following good row is never attempted. -/
theorem blank_sku_crashes_batch :
    PriceUpdateBot_run 3
        [⟨none, 105, ⟨true, true, some 100, none⟩⟩,
          ⟨some "GOOD", 105, ⟨true, true, some 105, none⟩⟩] =
      .error .attributeError := rfl

/-- C9 amended: a blank-SKU row is not a task-level failure; wherever it
sits in the batch, it aborts the entire run with the uncaught
`AttributeError`, and no row after it is attempted. -/
theorem blank_sku_aborts_run (fuel : ℕ) (pre : List InputRow) (r : InputRow)
    (rows : List InputRow) (hpre : ∀ x ∈ pre, x.sku.isSome)
    (hr : r.sku = none) :
    PriceUpdateBot_run fuel (pre ++ r :: rows) = .error .attributeError :=
  run_error_of_blank fuel pre r rows hpre hr

/-- Witness for the amended C9: one good row, then a blank-SKU row,
then another good row. -/
theorem blank_sku_aborts_run_witness :
    (∀ x ∈ [(⟨some "A", 105, ⟨true, true, some 105, none⟩⟩ : InputRow)],
        x.sku.isSome) ∧
      (⟨none, 105, ⟨true, true, some 100, none⟩⟩ : InputRow).sku = none ∧
      PriceUpdateBot_run 2
          ([(⟨some "A", 105, ⟨true, true, some 105, none⟩⟩ : InputRow)] ++
            (⟨none, 105, ⟨true, true, some 100, none⟩⟩ : InputRow) ::
              [(⟨some "B", 105, ⟨true, true, some 105, none⟩⟩ : InputRow)]) =
        .error .attributeError :=
  ⟨by simp, rfl,
    blank_sku_aborts_run 2
      [⟨some "A", 105, ⟨true, true, some 105, none⟩⟩]
      ⟨none, 105, ⟨true, true, some 100, none⟩⟩
      [⟨some "B", 105, ⟨true, true, some 105, none⟩⟩] (by simp) rfl⟩

/-- C10: on every apply, the value transmitted to the UI is the
two-decimal rendering of `next_val` while the loop's tracked value is
the unrounded `next_val`; the two differ by at most 1/200 = 0.005. -/
theorem transmitted_value_rounded_to_two_decimals (fuel : ℕ)
    (b : Option ℕ) (c t : ℚ) (p : ℚ × ℚ)
    (hp : p ∈ (priceLoop fuel b c t).1) :
    p.2 = sendFormat p.1 ∧ |p.2 - p.1| ≤ 1 / 200 := by
  have h := priceLoop_sent fuel b c t p hp
  refine ⟨h, ?_⟩
  rw [h]
  exact abs_sendFormat_sub p.1

/-- Witness for C10: the second apply of the scenario tracks 104.019601
and transmits 104.02, within 0.005 of each other. -/
theorem transmitted_value_rounded_to_two_decimals_witness :
    ((104019601 / 1000000 : ℚ), (5201 / 50 : ℚ)) ∈
        (priceLoop 5 none 100 105).1 ∧
      (((104019601 / 1000000 : ℚ), (5201 / 50 : ℚ)).2 =
          sendFormat ((104019601 / 1000000 : ℚ), (5201 / 50 : ℚ)).1 ∧
        |((104019601 / 1000000 : ℚ), (5201 / 50 : ℚ)).2 -
            ((104019601 / 1000000 : ℚ), (5201 / 50 : ℚ)).1| ≤ 1 / 200) := by
  have hm : ((104019601 / 1000000 : ℚ), (5201 / 50 : ℚ)) ∈
      (priceLoop 5 none 100 105).1 := by
    rw [priceLoop_scenario]
    simp [scenarioSteps]
  exact ⟨hm, transmitted_value_rounded_to_two_decimals 5 none 100 105 _ hm⟩
